import Mathlib

set_option synthInstance.maxSize 1024

/-!
Verification of the KillFeedSC log-correlation engine (`src/kill_feed_local.py`).

The engine is embedded shallowly:

* Python strings are modelled as `Str := List Char` so that every string
  operation the source uses (`lower`, `strip`, `split`, `in`, `replace`,
  `title`, slicing) is a structurally recursive Lean function that the kernel
  can evaluate.  ASCII is assumed, which covers the whole domain of the log
  format.
* `time.time()` timestamps are modelled as integers (`Time := Int`); every
  use in the source is an exact comparison of differences against constant
  windows, so only the ordered additive structure matters.
* The module-level mutable caches (`drivers`, `pending_vehicle_kills`,
  `recent_attackers`, `last_corpse`, and the dedup ring buffers) become an
  explicit state threaded through the handlers.  Python `dict`s are
  association lists with insertion-order iteration and in-place update,
  matching CPython semantics; `deque(maxlen=n)` is a list that evicts its
  oldest (leftmost) element on append at capacity.
* Each regex handler is translated as a function of the regex's captured
  groups (an `Option` of the group tuple models "the regex matched"); the
  body after a successful match is translated line by line.
-/

/-! ## Python string model -/

/-- Python `str` modelled as a list of characters. -/
abbrev Str := List Char

/-- Shorthand to turn a Lean string literal into the model type. -/
def str (s : String) : Str := s.data

/-- Python `str.lower()` (ASCII). -/
def toLowerL (l : Str) : Str := l.map Char.toLower

/-- Characters removed by Python `str.strip()` with no argument. -/
def isWsChar (c : Char) : Bool :=
  c = ' ' || c = '\t' || c = '\n' || c = '\r' || c = '\x0b' || c = '\x0c'

/-- Python `str.strip()`: drop leading and trailing whitespace. -/
def trimL (l : Str) : Str :=
  ((l.dropWhile isWsChar).reverse.dropWhile isWsChar).reverse

/-- Does `needle` occur at the start of `hay`?  (Helper for substring tests.) -/
def startsWithL : Str → Str → Bool
  | [], _ => true
  | _ :: _, [] => false
  | a :: as, b :: bs => a = b && startsWithL as bs

/-- Python `needle in hay` on strings: contiguous-substring containment. -/
def containsSubL : Str → Str → Bool
  | [], needle => needle.isEmpty
  | c :: t, needle => startsWithL needle (c :: t) || containsSubL t needle

/-- Python `sep.split(c)` for a single-character separator `c`
(`"".split(c) = [""]`, separators at the ends produce empty pieces). -/
def splitOnCharL (c : Char) : Str → List Str
  | [] => [[]]
  | x :: xs =>
    let r := splitOnCharL c xs
    if x = c then [] :: r
    else
      match r with
      | [] => [[x]]
      | h :: t => (x :: h) :: t

/-- Python `str.title()` for ASCII: upper-case every alphabetic character that
follows a non-alphabetic one, lower-case the rest of each alphabetic run.
The boolean argument records whether the previous character was alphabetic. -/
def titleAux : Bool → Str → Str
  | _, [] => []
  | prevAlpha, c :: cs =>
    if c.isAlpha then
      (if prevAlpha then c.toLower else c.toUpper) :: titleAux true cs
    else
      c :: titleAux false cs

/-- Python `str.title()` (ASCII). -/
def titleL (l : Str) : Str := titleAux false l

/-- Python `str.split()` restricted to the single spaces appearing in the
ship-name table: split on `' '` and drop empty pieces. -/
def wordsL (l : Str) : List Str := (splitOnCharL ' ' l).filter (fun w => !w.isEmpty)

/-- Python `' '.join(ws)`. -/
def joinSpaceL (ws : List Str) : Str := List.intercalate [' '] ws

/-- Single-character replacement: models Python `s.replace(c, d)` when both
pattern and replacement are one character (used for `replace('_', ' ')`). -/
def replaceCharL (l : Str) (c d : Char) : Str :=
  l.map (fun x => if x = c then d else x)

/-- Removal of every occurrence of one character: models Python
`s.replace(c, '')` for a one-character pattern. -/
def removeCharL (l : Str) (c : Char) : Str := l.filter (fun x => x ≠ c)

/-! ## Time and constants (`kill_feed_local.py` lines 162-176) -/

/-- Timestamps (`time.time()`), modelled as integers. -/
abbrev Time := Int

/-- `DRIVER_TTL_SEC = 5 * 60` (line 162). -/
def DRIVER_TTL_SEC : Time := 5 * 60

/-- `DEDUP_WINDOW_SEC = 5.0` (line 167). -/
def DEDUP_WINDOW_SEC : Time := 5

/-- `LINK_WINDOW_SEC = 6.0` (line 172). -/
def LINK_WINDOW_SEC : Time := 6

/-- `ATTACKER_CACHE_TTL = 15.0` (line 176). -/
def ATTACKER_CACHE_TTL : Time := 15

/-! ## Ship-name resolution (`SHIP_NAMES`, `get_ship_display_name`, lines 282-368) -/

/-- The `SHIP_NAMES` lookup table (lines 282-344), in source order; iteration
order matters because the first key contained in the queried name wins. -/
def SHIP_NAMES : List (Str × Str) := [
  (str "cutlass", str "Drake Cutlass"),
  (str "arrow", str "Anvil Arrow"),
  (str "gladius", str "Aegis Gladius"),
  (str "titan", str "Aegis Avenger Titan"),
  (str "freelancer", str "MISC Freelancer"),
  (str "prospector", str "MISC Prospector"),
  (str "600i", str "Origin 600i"),
  (str "890j", str "Origin 890 Jump"),
  (str "carrack", str "Anvil Carrack"),
  (str "mole", str "ARGO MOLE"),
  (str "hercules", str "Crusader Hercules"),
  (str "valkyrie", str "Anvil Valkyrie"),
  (str "vanguard", str "Aegis Vanguard"),
  (str "sabre", str "Aegis Sabre"),
  (str "hornet", str "Anvil Hornet"),
  (str "buccaneer", str "Drake Buccaneer"),
  (str "constellation", str "RSI Constellation"),
  (str "caterpillar", str "Drake Caterpillar"),
  (str "mercury", str "Crusader Mercury Star Runner"),
  (str "msr", str "Crusader Mercury Star Runner"),
  (str "nomad", str "Consolidated Outland Nomad"),
  (str "terrapin", str "Anvil Terrapin"),
  (str "reclaimer", str "Aegis Reclaimer"),
  (str "hammerhead", str "Aegis Hammerhead"),
  (str "idris", str "Aegis Idris"),
  (str "javelin", str "Aegis Javelin"),
  (str "retaliator", str "Aegis Retaliator"),
  (str "eclipse", str "Aegis Eclipse"),
  (str "blade", str "Vanduul Blade"),
  (str "glaive", str "Vanduul Glaive"),
  (str "scythe", str "Vanduul Scythe"),
  (str "defender", str "Banu Defender"),
  (str "merchantman", str "Banu Merchantman"),
  (str "kraken", str "Drake Kraken"),
  (str "polaris", str "RSI Polaris"),
  (str "perseus", str "RSI Perseus"),
  (str "cutter", str "Drake Cutter"),
  (str "corsair", str "Drake Corsair"),
  (str "redeemer", str "Aegis Redeemer"),
  (str "inferno", str "Aegis Inferno"),
  (str "ion", str "Aegis Ion"),
  (str "scorpius", str "RSI Scorpius"),
  (str "ares", str "Crusader Ares"),
  (str "spirit", str "Crusader Spirit"),
  (str "c1", str "Crusader C1"),
  (str "a1", str "Crusader A1"),
  (str "c2", str "Crusader C2"),
  (str "m2", str "Crusader M2"),
  (str "a2", str "Crusader A2"),
  (str "raft", str "Argo RAFT"),
  (str "vulture", str "Drake Vulture"),
  (str "reliant", str "MISC Reliant"),
  (str "tana", str "MISC Reliant Tana"),
  (str "kore", str "MISC Reliant Kore"),
  (str "sen", str "MISC Reliant Sen"),
  (str "talon", str "Esperia Talon"),
  (str "shrike", str "Esperia Talon Shrike"),
  (str "prowler", str "Esperia Prowler"),
  (str "khartu", str "Xi\x27an Khartu-al"),
  (str "navigator", str "Banu Merchantman Navigator"),
  (str "bmm", str "Banu Merchantman")]

/-- `get_ship_display_name` (lines 346-368): lower-case and strip the raw
identifier, return the manufacturer-less form of the first table entry whose
key occurs in it, otherwise title-case the identifier, replace underscores by
spaces and truncate to 20 characters.  The keys are already lower-case, so
`key.lower()` is the key itself. -/
def get_ship_display_name (ship_name : Str) : Str :=
  if ship_name.isEmpty then []
  else
    let s := trimL (toLowerL ship_name)
    match SHIP_NAMES.find? (fun kv => containsSubL s kv.1) with
    | some kv =>
      let parts := wordsL kv.2
      if parts.length > 1 then joinSpaceL (parts.drop 1) else kv.2
    | none =>
      let formatted := replaceCharL (titleL s) '_' ' '
      if formatted.length > 20 then formatted.take 17 ++ str "..." else formatted

/-! ## Entity-id detection and player-name cleaning (lines 536-569) -/

/-- Python `str.isdigit()` on ASCII: non-empty and all characters digits. -/
def pyIsDigit (l : Str) : Bool := !l.isEmpty && l.all Char.isDigit

/-- `is_entity_id` (lines 536-550): the empty name counts as an entity id;
otherwise a name containing an underscore and some digit whose last
underscore-separated part is a number longer than 8 digits is an entity id. -/
def is_entity_id (name : Str) : Bool :=
  if name.isEmpty then true
  else if name.contains '_' && name.any Char.isDigit then
    let parts := splitOnCharL '_' name
    if parts.length ≥ 2 then
      let last_part := parts.getLastD []
      pyIsDigit last_part && decide (last_part.length > 8)
    else false
  else false

/-- `clean_player_name` (lines 552-569): empty or entity-id names and the
"unknown" placeholders become the empty string; otherwise apostrophes,
double quotes and backticks are removed and the result is stripped. -/
def clean_player_name (name : Str) : Str :=
  if name.isEmpty then []
  else if is_entity_id name then []
  else if [str "unknown", str "inconnu", str "none", str "n/a"].contains
      (toLowerL (trimL name)) then []
  else trimL (removeCharL (removeCharL (removeCharL name '\x27') '"') '\x60')

/-! ## Data model (lines 156-179, 665-880) -/

/-- `DriverEntry` (lines 156-159): the vehicle a pilot was last seen driving. -/
structure DriverEntry where
  ship : Str
  last_seen : Time
deriving DecidableEq, Repr

/-- The `drivers` dict (line 161): pilot name to `DriverEntry`, as an
association list iterated in insertion order (CPython dict semantics). -/
abbrev Drivers := List (Str × DriverEntry)

/-- One `pending_vehicle_kills` element (line 171):
`(ts, killer, vehicle, damage_type, raw_line)`. -/
abbrev PendingVK := Time × Str × Str × Str × Str

/-- The `recent_attackers` dict (line 175): attacker name to
`(timestamp, vehicle)`. -/
abbrev Attackers := List (Str × (Time × Str))

/-- A dedup signature, as produced by `sign_evt` (lines 473-478). -/
abbrev Sig := Str × Str × Str

/-- A candidate event dictionary.  Every handler builds a dict with a subset
of these keys; absent keys are `none` here (`victim` is present exactly on the
kill/suicide/death paths, `attacker`/`target` exactly on the hostility path).
The `version`, `ts` and `sentence_fr` fields added by `broadcast` carry no
correlation content (the last one is randomized) and are not modelled. -/
structure Evt where
  type : Str
  victim : Option Str := none
  killer : Option Str := none
  victim_ship : Option Str := none
  killer_ship : Option Str := none
  cause : Option Str := none
  attacker : Option Str := none
  target : Option Str := none
  raw : Str := []
deriving DecidableEq, Repr

/-- CPython dict assignment `d[k] = v`: update in place if the key exists
(keeping its position), otherwise append at the end. -/
def dictSet (d : List (Str × α)) (k : Str) (v : α) : List (Str × α) :=
  if d.any (fun p => p.1 = k) then
    d.map (fun p => if p.1 = k then (k, v) else p)
  else d ++ [(k, v)]

/-- Dict lookup `d.get(k)` / `d[k]`: the unique entry with key `k`. -/
def dictFind (d : List (Str × α)) (k : Str) : Option α :=
  (d.find? (fun p => p.1 = k)).map (fun p => p.2)

/-- `deque(maxlen := cap)` append: evict the oldest (leftmost) element when
the deque is at capacity, then append on the right. -/
def pushMax (cap : Nat) (l : List α) (x : α) : List α :=
  (if cap ≤ l.length then l.drop 1 else l) ++ [x]

/-- Index of the last occurrence of `a` in `l` (Python `idxs[-1]` over all
indices whose element equals `a`). -/
def lastIdxOf [DecidableEq α] : List α → α → Option Nat
  | [], _ => none
  | x :: xs, a =>
    match lastIdxOf xs a with
    | some i => some (i + 1)
    | none => if x = a then some 0 else none

/-- `prune_drivers` (lines 375-379): drop every driver whose entry is older
than `DRIVER_TTL_SEC` at time `t`. -/
def prune_drivers (t : Time) (d : Drivers) : Drivers :=
  d.filter (fun p => !decide (t - p.2.last_seen > DRIVER_TTL_SEC))

/-- `sign_evt` (lines 473-478): dedup signature of an event. -/
def sign_evt (e : Evt) : Sig :=
  (e.type, toLowerL ((e.victim).getD []), toLowerL ((e.killer).getD []))

/-- The dedup filter inlined in `broadcast` (lines 496-505): if the signature
is present and its most recent recorded time is within `DEDUP_WINDOW_SEC` of
now, drop without recording; otherwise record the signature and the current
time in the two 256-slot ring buffers and forward.  Returns
`(forwarded, signatures, times)`. -/
def broadcast_dedup (sigs : List Sig) (times : List Time) (s : Sig) (t : Time) :
    Bool × List Sig × List Time :=
  if s ∈ sigs then
    match lastIdxOf sigs s with
    | some i =>
      if t - times.getD i 0 < DEDUP_WINDOW_SEC then (false, sigs, times)
      else (true, pushMax 256 sigs s, pushMax 256 times t)
    | none => (true, pushMax 256 sigs s, pushMax 256 times t)
  else (true, pushMax 256 sigs s, pushMax 256 times t)

/-- The reverse lookup used in `handle_actor_death_line` (lines 604-607 and
613-616): the first driver, in insertion order, whose non-empty vehicle id
contains the raw token as a substring. -/
def reverseLookup (d : Drivers) (tok : Str) : Option Str :=
  (d.find? (fun p => !p.2.ship.isEmpty && containsSubL p.2.ship tok)).map (fun p => p.1)

/-- `get_killer_ship` (lines 804-821): the display name of the killer's ship
if the killer has a `drivers` entry; the killer itself may be absent.  Note
that it does not prune `drivers` before reading. -/
def get_killer_ship (d : Drivers) (killer : Str) : Option Str :=
  if killer.isEmpty then none
  else
    match dictFind d killer with
    | some entry => some (get_ship_display_name entry.ship)
    | none => none

/-! ## Handlers (lines 523-880) -/

/-- Python truthiness of the `killer` variable in `handle_actor_death_line`
(`None` and the empty string are falsy). -/
def pyTruthy (o : Option Str) : Bool :=
  match o with
  | some k => !k.isEmpty
  | none => false

/-- `extract_driver` (lines 523-534): on a driver-entered-vehicle match with a
non-empty stripped driver name, record the pilot-to-vehicle association and
consume the line; no event is emitted.  The option argument stands for the
groups of the first of `RE_DRIVER_A/B/C` that matches with a driver. -/
def extract_driver (d : Drivers) (now : Time) (m : Option (Str × Str)) :
    Bool × Drivers :=
  match m with
  | none => (false, d)
  | some (dr, sh) =>
    let driver := trimL dr
    let ship := trimL sh
    if driver ≠ [] then (true, dictSet d driver ⟨ship, now⟩) else (false, d)

/-- The event built when a corpse is linked to a pending vehicle destruction
(lines 680-703 and, duplicated verbatim in the source, lines 730-753).  The
pending element is `(ts, killer, vehicle, damage_type, raw)`. -/
def corpseLinkEmit (d : Drivers) (victim : Str) (e : PendingVK) : Evt :=
  let killer := e.2.1
  let vehicle := e.2.2.1
  let damage_type := e.2.2.2.1
  let raw := e.2.2.2.2
  let evt_type :=
    if killer ≠ [] ∧ victim ≠ [] ∧ toLowerL killer = toLowerL victim then str "suicide"
    else if killer = [] then str "death"
    else str "kill"
  { type := evt_type
    victim := some victim
    killer := if killer = [] then none else some killer
    victim_ship := some (get_ship_display_name vehicle)
    killer_ship := get_killer_ship d killer
    cause := some damage_type
    raw := raw }

/-- The backwards scan of `pending_vehicle_kills` (lines 679-681 / 729-731):
walk from the most recent element to the oldest and take the first one whose
age is within `LINK_WINDOW_SEC`. -/
def corpseLinkScan (now : Time) (p : List PendingVK) : Option PendingVK :=
  (p.reverse).find? (fun e => decide (now - e.1 ≤ LINK_WINDOW_SEC))

/-- The `RE_CORPSE_PLAYER` branch of `handle_corpse_line` (lines 721-766),
reached when `RE_CORPSE` did not match or produced an empty cleaned victim.
Returns `(handled, pending, last_corpse write, events)`. -/
def corpsePlayerBranch (d : Drivers) (p : List PendingVK) (now : Time)
    (gPlayer : Option Str) : Bool × List PendingVK × Option (Time × Str) × List Evt :=
  match gPlayer with
  | some praw =>
    let player_name := clean_player_name praw
    if player_name ≠ [] then
      match corpseLinkScan now p with
      | some e => (true, p.erase e, none, [corpseLinkEmit d player_name e])
      | none => (true, p, some (now, player_name), [])
    else (false, p, none, [])
  | none => (false, p, none, [])

/-- `handle_corpse_line` (lines 665-768).  `g1` is group 1 of `RE_CORPSE`
when it matches (the only group the handler uses), `gPlayer` the player group
of `RE_CORPSE_PLAYER`.  A victim with a recent pending destruction emits the
linked event and removes the consumed pending element (`deque.remove`, first
occurrence, `ValueError` swallowed); otherwise the victim is stashed in
`last_corpse`.  Returns `(handled, pending, last_corpse write, events)`. -/
def handle_corpse_line (d : Drivers) (p : List PendingVK) (now : Time)
    (g1 gPlayer : Option Str) : Bool × List PendingVK × Option (Time × Str) × List Evt :=
  match g1 with
  | some vraw =>
    let victim := clean_player_name vraw
    if victim ≠ [] then
      match corpseLinkScan now p with
      | some e => (true, p.erase e, none, [corpseLinkEmit d victim e])
      | none => (true, p, some (now, victim), [])
    else corpsePlayerBranch d p now gPlayer
  | none => corpsePlayerBranch d p now gPlayer

/-- `handle_vehicle_destruction` (lines 823-879).  `m` carries the
`RE_VEHICLE_DESTRUCTION` groups `(vehicle, driver, causer, damage_type)`.
The attacker cache is pruned; an unresolved driver queues a pending kill,
a resolved one emits directly.  Returns `(handled, pending, attackers,
events)`; `drivers` is only read (via `get_killer_ship`), never written. -/
def handle_vehicle_destruction (d : Drivers) (p : List PendingVK) (a : Attackers)
    (now : Time) (m : Option (Str × Str × Str × Str)) (rawLine : Str) :
    Bool × List PendingVK × Attackers × List Evt :=
  match m with
  | none => (false, p, a, [])
  | some (vehicle, driver_raw, killer_raw, damageG) =>
    let damage_type := if damageG = [] then str "Combat" else damageG
    let driver := clean_player_name driver_raw
    let killer := clean_player_name killer_raw
    let a2 := a.filter (fun kv => !decide (now - kv.2.1 > ATTACKER_CACHE_TTL))
    if driver = [] ∨ toLowerL driver_raw = str "unknown" then
      (true, pushMax 64 p (now, killer, vehicle, damage_type, trimL rawLine), a2, [])
    else
      let victim := driver
      let evt_type :=
        if killer ≠ [] ∧ victim ≠ [] ∧ toLowerL killer = toLowerL victim then str "suicide"
        else if killer = [] then str "death"
        else str "kill"
      let evt : Evt :=
        { type := evt_type
          victim := some victim
          killer := if killer = [] then none else some killer
          victim_ship := some (get_ship_display_name vehicle)
          killer_ship := get_killer_ship d killer
          cause := some damage_type
          raw := trimL rawLine }
      (true, p, a2, [evt])

/-- `handle_hostility_line` (lines 770-802).  `m` carries the `RE_HOSTILITY`
groups `(attacker, target_vehicle, target_pilot)`.  If either cleaned name is
empty nothing happens; otherwise the target's vehicle is recorded in
`drivers`, the attacker is cached, and a hostility event is emitted.
Returns `(handled, drivers, attackers, events)`. -/
def handle_hostility_line (d : Drivers) (a : Attackers) (now : Time)
    (m : Option (Str × Str × Str)) (rawLine : Str) :
    Bool × Drivers × Attackers × List Evt :=
  match m with
  | none => (false, d, a, [])
  | some (attacker_raw, target_vehicle_raw, target_pilot_raw) =>
    let attacker := clean_player_name attacker_raw
    let target := clean_player_name target_pilot_raw
    if attacker = [] ∨ target = [] then (false, d, a, [])
    else
      let d2 := if target ≠ [] ∧ target_vehicle_raw ≠ [] then
          dictSet d target ⟨target_vehicle_raw, now⟩ else d
      let a2 := if attacker ≠ [] then dictSet a attacker (now, []) else a
      let evt : Evt :=
        { type := str "hostility"
          attacker := some attacker
          target := some target
          raw := trimL rawLine }
      (true, d2, a2, [evt])

/-- Victim resolution in `handle_actor_death_line` (lines 597, 600-608):
clean the raw token; if cleaning rejected a non-empty token, fall back to the
reverse lookup over `drivers`, keeping the empty string when that also
fails. -/
def resolveVictim (d : Drivers) (victim_raw : Str) : Str :=
  let victim := clean_player_name victim_raw
  if victim = [] ∧ victim_raw ≠ [] then (reverseLookup d victim_raw).getD []
  else victim

/-- Killer resolution in `handle_actor_death_line` (lines 598, 611-617):
`clean_player_name(killer_raw) or None`, then the reverse lookup when the
cleaned killer is `None` and the raw token is non-empty.  The reverse lookup
assigns whatever driver name it finds (even an empty one), mirroring the
source's direct assignment. -/
def resolveKiller (d : Drivers) (killer_raw : Str) : Option Str :=
  let killerClean := clean_player_name killer_raw
  let killer : Option Str := if killerClean = [] then none else some killerClean
  if killer = none ∧ killer_raw ≠ [] then
    match reverseLookup d killer_raw with
    | some dn => some dn
    | none => none
  else killer

/-- The shared tail of `handle_actor_death_line` (lines 597-663), reached
with the raw victim/killer tokens, the cause, and (on the `RE_SC_KILL` branch
only) the victim-vehicle and weapon strings.  Cleans the names, resolves
entity-id tokens by reverse lookup in `drivers`, discards the line when no
victim results, prunes `drivers`, decides the event type and the ship names,
and emits.  Returns `(handled, drivers, events)`. -/
def actorDeathCore (d : Drivers) (now : Time) (victim_raw killer_raw : Str)
    (cause : Option Str) (victim_vehicle_raw weapon : Option Str) (rawLine : Str) :
    Bool × Drivers × List Evt :=
  let victim := resolveVictim d victim_raw
  let killer : Option Str := resolveKiller d killer_raw
  if victim = [] then (false, d, [])
  else
    let d2 := prune_drivers now d
    let evt_type :=
      if pyTruthy killer ∧ victim ≠ [] ∧ toLowerL (killer.getD []) = toLowerL victim then
        str "suicide"
      else if containsSubL (toLowerL (cause.getD [])) (str "suicide") then str "suicide"
      else if ¬ pyTruthy killer then str "death"
      else str "kill"
    let victimShipFromDrivers : Option Str :=
      if victim ≠ [] then
        match dictFind d2 victim with
        | some en => some (get_ship_display_name en.ship)
        | none => none
      else none
    let victim_ship : Option Str :=
      match victim_vehicle_raw with
      | some vvr => if vvr ≠ [] then some (get_ship_display_name vvr) else victimShipFromDrivers
      | none => victimShipFromDrivers
    let killerShipFromDrivers : Option Str :=
      if pyTruthy killer then
        match dictFind d2 (killer.getD []) with
        | some en => some (get_ship_display_name en.ship)
        | none => none
      else none
    let killer_ship : Option Str :=
      match weapon with
      | some w => if w ≠ [] ∧ w.contains '_' then some (get_ship_display_name w) else killerShipFromDrivers
      | none => killerShipFromDrivers
    let evt : Evt :=
      { type := evt_type
        victim := some victim
        killer := killer
        killer_ship := killer_ship
        victim_ship := victim_ship
        cause := cause
        raw := trimL rawLine }
    (true, d2, [evt])

/-- `handle_actor_death_line` (lines 571-663): try `RE_SC_KILL` first, then
`RE_KILL_EVENT`, `RE_DEATH_ALT`, `RE_ACTOR_DEATH`.  The `RE_SC_KILL` groups
are `(victim, victim_vehicle, killer, weapon, damage_type)`; the fallback
regexes provide `(victim, killer)` and, for `RE_ACTOR_DEATH` only, an
optional cause group. -/
def handle_actor_death_line (d : Drivers) (now : Time)
    (sc : Option (Str × Str × Str × Str × Str)) (ke da : Option (Str × Str))
    (ad : Option (Str × Str × Option Str)) (rawLine : Str) :
    Bool × Drivers × List Evt :=
  match sc with
  | some (v, vv, k, w, dt) =>
    actorDeathCore d now (trimL v) (trimL k) (some (trimL dt)) (some (trimL vv))
      (some (trimL w)) rawLine
  | none =>
    match ke with
    | some (v, k) => actorDeathCore d now (trimL v) (trimL k) none none none rawLine
    | none =>
      match da with
      | some (v, k) => actorDeathCore d now (trimL v) (trimL k) none none none rawLine
      | none =>
        match ad with
        | some (v, k, c) =>
          actorDeathCore d now (trimL v) (trimL k) (some (trimL (c.getD []))) none none rawLine
        | none => (false, d, [])

/-! ## The parse loop cascade (`parse_loop`, lines 1067-1103) -/

/-- The regex matches a raw line can produce, one field per pattern the
cascade consults.  `none` means "this regex did not match the line". -/
structure LineMatches where
  driverM : Option (Str × Str) := none
  corpseM : Option Str := none
  corpsePlayerM : Option Str := none
  vehicleDestructionM : Option (Str × Str × Str × Str) := none
  scKillM : Option (Str × Str × Str × Str × Str) := none
  killEventM : Option (Str × Str) := none
  deathAltM : Option (Str × Str) := none
  actorDeathM : Option (Str × Str × Option Str) := none
  hostilityM : Option (Str × Str × Str) := none
  raw : Str := []

/-- One step of `parse_loop` (lines 1067-1103) over the three caches that the
handlers read and write.  The handlers run in the source's order —
`extract_driver`, corpse, vehicle destruction, actor death, hostility — and
the first one that reports the line as handled ends the cascade.  Returns the
new caches, the `last_corpse` write if any, and the candidate events. -/
def corrStep (d : Drivers) (p : List PendingVK) (a : Attackers) (now : Time)
    (lm : LineMatches) :
    Drivers × List PendingVK × Attackers × Option (Time × Str) × List Evt :=
  let rd := extract_driver d now lm.driverM
  if rd.1 then (rd.2, p, a, none, [])
  else
    let rc := handle_corpse_line rd.2 p now lm.corpseM lm.corpsePlayerM
    if rc.1 then (rd.2, rc.2.1, a, rc.2.2.1, rc.2.2.2)
    else
      let rv := handle_vehicle_destruction rd.2 rc.2.1 a now lm.vehicleDestructionM lm.raw
      if rv.1 then (rd.2, rv.2.1, rv.2.2.1, none, rv.2.2.2)
      else
        let ra := handle_actor_death_line rd.2 now lm.scKillM lm.killEventM
          lm.deathAltM lm.actorDeathM lm.raw
        if ra.1 then (ra.2.1, rv.2.1, rv.2.2.1, none, ra.2.2)
        else
          let rh := handle_hostility_line ra.2.1 rv.2.2.1 now lm.hostilityM lm.raw
          (rh.2.1, rv.2.1, rh.2.2.1, none, rh.2.2.2)

/-- The correlator's mutable module-level state (lines 161-176). -/
structure CorrState where
  drivers : Drivers
  last_corpse : Option (Time × Str)
  pending_vehicle_kills : List PendingVK
  recent_attackers : Attackers
deriving DecidableEq, Repr

/-- Process one line against the correlator state: run the cascade and fold
the `last_corpse` write (a plain overwrite in the source) into the state. -/
def processLine (st : CorrState) (now : Time) (lm : LineMatches) :
    CorrState × List Evt :=
  let r := corrStep st.drivers st.pending_vehicle_kills st.recent_attackers now lm
  let lc := match r.2.2.2.1 with
    | some w => some w
    | none => st.last_corpse
  (⟨r.1, lc, r.2.1, r.2.2.1⟩, r.2.2.2.2)

/-! ## Full pipeline: correlator followed by the dedup filter -/

/-- Correlator state plus the two dedup ring buffers of `broadcast`
(lines 165-166). -/
structure PipeState where
  corr : CorrState
  recent_signatures : List Sig
  recent_times : List Time
deriving DecidableEq, Repr

/-- The initial module state: every cache empty. -/
def initState : PipeState := ⟨⟨[], none, [], []⟩, [], []⟩

/-- Feed one candidate event through the dedup filter, accumulating the
forwarded events (the source calls `broadcast` once per candidate). -/
def dedupFold (acc : List Sig × List Time × List Evt) (e : Evt) (now : Time) :
    List Sig × List Time × List Evt :=
  let r := broadcast_dedup acc.1 acc.2.1 (sign_evt e) now
  (r.2.1, r.2.2, acc.2.2 ++ if r.1 then [e] else [])

/-- Process one line end to end: classify it, then run every candidate event
through the dedup filter.  Returns the new state and the forwarded events. -/
def pipelineStep (ps : PipeState) (now : Time) (lm : LineMatches) :
    PipeState × List Evt :=
  let (st, cands) := processLine ps.corr now lm
  let r := cands.foldl (fun acc e => dedupFold acc e now)
    (ps.recent_signatures, ps.recent_times, [])
  (⟨st, r.1, r.2.1⟩, r.2.2)

/-- Process a sequence of timestamped lines, concatenating the forwarded
events in order. -/
def pipelineRun (ps : PipeState) : List (Time × LineMatches) → PipeState × List Evt
  | [] => (ps, [])
  | (t, lm) :: rest =>
    let r1 := pipelineStep ps t lm
    let r2 := pipelineRun r1.1 rest
    (r2.1, r1.2 ++ r2.2)

/-! ## Tailer push (lines 944-947, 1113) -/

/-- The line-queue capacity: `asyncio.Queue(maxsize=4096)` (line 1113). -/
def LINE_QUEUE_MAXSIZE : Nat := 4096

/-- `asyncio.Queue.put_nowait` semantics: enqueue if the bounded queue has
room, otherwise raise `QueueFull`. -/
def put_nowait (q : List Str) (line : Str) : Except Unit (List Str) :=
  if q.length < LINE_QUEUE_MAXSIZE then .ok (q ++ [line]) else .error ()

/-- The Tailer's push (line 947): `loop.call_soon_threadsafe(q.put_nowait,
line)` schedules `put_nowait` as an event-loop callback; an exception raised
there is swallowed by the loop's exception handler, so on a full queue the
line is lost and the Tailer does not block. -/
def tail_push (q : List Str) (line : Str) : List Str :=
  match put_nowait q line with
  | .ok q2 => q2
  | .error _ => q

/-! ## Broadcast fan-out (`broadcast`, lines 507-521) -/

/-- The send loop of `broadcast` (lines 512-517): try to send the payload to
each client of the snapshot in order; clients whose send raises are collected
in `to_drop`.  `ok ws = true` means the send to `ws` succeeds.  Returns
`(delivered, to_drop)`. -/
def sendLoop : List Nat → (Nat → Bool) → List Nat × List Nat
  | [], _ => ([], [])
  | ws :: rest, ok =>
    let r := sendLoop rest ok
    if ok ws then (ws :: r.1, r.2) else (r.1, ws :: r.2)

/-- `broadcast`'s fan-out (lines 507-521): snapshot the client set, send to
every member of the snapshot, then discard every client whose send failed.
Returns `(delivered, remaining clients)`.  The whole operation is a total
function: every send failure is caught, none aborts the broadcast. -/
def broadcast_fanout (wsClients : List Nat) (ok : Nat → Bool) :
    List Nat × List Nat :=
  let clients := wsClients
  if clients.isEmpty then ([], wsClients)
  else
    let r := sendLoop clients ok
    (r.1, if r.2.isEmpty then wsClients else wsClients.filter (fun c => !r.2.contains c))

/-! ## Supporting lemmas -/

/-- Lower-casing preserves emptiness. -/
theorem toLowerL_eq_nil {l : Str} : toLowerL l = [] ↔ l = [] := by
  simp [toLowerL]

/-- `pushMax` always appends the new element on the right. -/
theorem pushMax_eq (cap : Nat) (l : List α) (x : α) :
    pushMax cap l x = (if cap ≤ l.length then l.drop 1 else l) ++ [x] := rfl

/-- The last index of an element just appended is the old length. -/
theorem lastIdxOf_concat [DecidableEq α] (l : List α) (a : α) :
    lastIdxOf (l ++ [a]) a = some l.length := by
  induction l with
  | nil => simp [lastIdxOf]
  | cons x xs ih => simp [lastIdxOf, ih]

/-- An absent element has no last index. -/
theorem lastIdxOf_of_not_mem [DecidableEq α] {l : List α} {a : α} (h : a ∉ l) :
    lastIdxOf l a = none := by
  induction l with
  | nil => rfl
  | cons x xs ih =>
    simp only [List.mem_cons, not_or] at h
    simp [lastIdxOf, ih h.2, Ne.symm h.1, h.1]

/-- The send loop of `broadcast` delivers exactly to the clients whose send
succeeds and collects exactly the ones whose send fails. -/
theorem sendLoop_eq (clients : List Nat) (ok : Nat → Bool) :
    sendLoop clients ok = (clients.filter ok, clients.filter (fun ws => !ok ws)) := by
  induction clients with
  | nil => rfl
  | cons ws rest ih =>
    by_cases h : ok ws <;> simp [sendLoop, ih, List.filter_cons, h]

/-- Indexing a list right after appending an element retrieves it. -/
theorem getD_concat (l : List α) (x d : α) : (l ++ [x]).getD l.length d = x := by
  induction l with
  | nil => rfl
  | cons y l ih => simp only [List.cons_append]; exact ih

/-! ## Claim C2 -/

/-- C2.  Offering a fresh signature to the dedup filter forwards it; offering
the same signature again within `DEDUP_WINDOW_SEC` (5s) drops the duplicate
and records nothing, so of the pair exactly the first is forwarded; offering
the signature once more over 6 seconds after the first recorded occurrence
forwards a second event.  `hlen` is the source's lock-step-ring-buffers
invariant, which holds for every reachable state. -/
theorem c2_dedup_window (sigs : List Sig) (times : List Time) (s : Sig)
    (t0 t1 t2 : Time) (hlen : sigs.length = times.length) (hfresh : s ∉ sigs)
    (h01 : t1 - t0 < DEDUP_WINDOW_SEC) (h2 : t2 - t0 > 6) :
    (broadcast_dedup sigs times s t0).1 = true ∧
    (broadcast_dedup (pushMax 256 sigs s) (pushMax 256 times t0) s t1) =
      (false, pushMax 256 sigs s, pushMax 256 times t0) ∧
    (broadcast_dedup (pushMax 256 sigs s) (pushMax 256 times t0) s t2).1 = true := by
  have hq : (if 256 ≤ sigs.length then sigs.drop 1 else sigs).length =
      (if 256 ≤ times.length then times.drop 1 else times).length := by
    rw [hlen]; split <;> simp [hlen]
  have hmem : s ∈ pushMax 256 sigs s := by
    rw [pushMax_eq]; simp
  have hidx : lastIdxOf (pushMax 256 sigs s) s =
      some (if 256 ≤ sigs.length then sigs.drop 1 else sigs).length := by
    rw [pushMax_eq, lastIdxOf_concat]
  have htime : (pushMax 256 times t0).getD
      (if 256 ≤ sigs.length then sigs.drop 1 else sigs).length 0 = t0 := by
    rw [pushMax_eq, hq, getD_concat]
  refine ⟨?_, ?_, ?_⟩
  · simp [broadcast_dedup, hfresh]
  · rw [broadcast_dedup, if_pos hmem, hidx]
    simp only [htime]
    rw [if_pos h01]
  · rw [broadcast_dedup, if_pos hmem, hidx]
    simp only [htime]
    have hh : ¬(t2 - t0 < DEDUP_WINDOW_SEC) := by
      simp only [DEDUP_WINDOW_SEC]
      intro hcon
      linarith
    rw [if_neg hh]

/-- Witness for C2: the concrete three-offer scenario at times 0, 4 and 7. -/
theorem c2_dedup_window_witness :
    (broadcast_dedup [] [] (str "kill", str "alice", str "bob") 0).1 = true ∧
    (broadcast_dedup (pushMax 256 [] (str "kill", str "alice", str "bob"))
        (pushMax 256 [] (0 : Time)) (str "kill", str "alice", str "bob") 4) =
      (false, pushMax 256 [] (str "kill", str "alice", str "bob"),
        pushMax 256 [] (0 : Time)) ∧
    (broadcast_dedup (pushMax 256 [] (str "kill", str "alice", str "bob"))
        (pushMax 256 [] (0 : Time)) (str "kill", str "alice", str "bob") 7).1 = true :=
  c2_dedup_window [] [] (str "kill", str "alice", str "bob") 0 4 7 rfl
    (by decide) (by decide) (by decide)

/-! ## Claim C5 -/

/-- C5 counterexample.  The claim says a push on a full line queue blocks and
no line is ever dropped; in the code the Tailer schedules
`q.put_nowait(line)` on the event loop, which raises `QueueFull` on a full
queue, and the exception is swallowed: with the 4096-slot queue full, pushing
a new line leaves the queue unchanged and the line is lost. -/
theorem c5_counterexample :
    tail_push (List.replicate 4096 (str "a")) (str "x") =
      List.replicate 4096 (str "a") ∧
    str "x" ∉ List.replicate 4096 (str "a") := by
  have hlen : (List.replicate 4096 (str "a")).length = 4096 :=
    List.length_replicate 4096 _
  constructor
  · rw [tail_push, put_nowait, hlen, LINE_QUEUE_MAXSIZE, if_neg (lt_irrefl (4096 : Nat))]
  · intro h
    rw [List.mem_replicate] at h
    exact absurd h.2 (by decide)

/-- C5 as amended.  The Tailer's push is the non-blocking `put_nowait`
scheduled through `call_soon_threadsafe`: while the bounded queue (capacity
4096) has free space the line is appended in order, and when the queue is
full the `QueueFull` exception is swallowed by the event loop and the line is
dropped; the push never blocks. -/
theorem c5_put_nowait_semantics (q : List Str) (line : Str) :
    (q.length < LINE_QUEUE_MAXSIZE → tail_push q line = q ++ [line]) ∧
    (LINE_QUEUE_MAXSIZE ≤ q.length → tail_push q line = q) := by
  constructor
  · intro h
    simp [tail_push, put_nowait, h]
  · intro h
    simp [tail_push, put_nowait, Nat.not_lt.mpr h]

/-- Witness for C5's amended statement: pushing onto an empty queue delivers
the line. -/
theorem c5_put_nowait_semantics_witness :
    tail_push [] (str "x") = [] ++ [str "x"] :=
  (c5_put_nowait_semantics [] (str "x")).1 (by decide)

/-! ## Claim C8 -/

/-- C8.  Broadcasting to a snapshot of the subscriber set delivers the event
to exactly those subscribers whose send succeeds; a subscriber whose send
raises is removed from the set while every other subscriber both receives the
event and stays subscribed; the operation is a total function, so it
completes without raising. -/
theorem c8_broadcast_fanout (clients : List Nat) (ok : Nat → Bool) :
    (∀ ws ∈ clients, ok ws = true → ws ∈ (broadcast_fanout clients ok).1) ∧
    (∀ ws ∈ (broadcast_fanout clients ok).1, ws ∈ clients ∧ ok ws = true) ∧
    (∀ ws ∈ clients, ok ws = false → ws ∉ (broadcast_fanout clients ok).2) ∧
    (∀ ws ∈ clients, ok ws = true → ws ∈ (broadcast_fanout clients ok).2) ∧
    (∀ ws ∈ (broadcast_fanout clients ok).2, ws ∈ clients) := by
  have hfst : (broadcast_fanout clients ok).1 = clients.filter ok := by
    unfold broadcast_fanout
    by_cases hc : clients.isEmpty
    · rw [if_pos hc]
      rw [List.isEmpty_iff] at hc
      subst hc
      rfl
    · rw [if_neg hc]
      simp [sendLoop_eq]
  have hsnd : ∀ ws, ws ∈ (broadcast_fanout clients ok).2 ↔
      ws ∈ clients ∧ ok ws = true := by
    intro ws
    unfold broadcast_fanout
    by_cases hc : clients.isEmpty
    · rw [if_pos hc]
      rw [List.isEmpty_iff] at hc
      subst hc
      simp
    · rw [if_neg hc]
      simp only [sendLoop_eq]
      by_cases hd : (List.filter (fun w => !ok w) clients).isEmpty
      · rw [if_pos hd]
        rw [List.isEmpty_iff, List.filter_eq_nil_iff] at hd
        constructor
        · intro h
          refine ⟨h, ?_⟩
          have := hd ws h
          simpa using this
        · exact fun h => h.1
      · rw [if_neg hd]
        simp only [List.mem_filter, Bool.not_eq_true']
        constructor
        · rintro ⟨h1, h2⟩
          refine ⟨h1, ?_⟩
          by_contra hok
          rw [Bool.not_eq_true] at hok
          have hin : (List.filter (fun w => !ok w) clients).contains ws = true :=
            List.elem_iff.mpr (List.mem_filter.mpr ⟨h1, by simp [hok]⟩)
          rw [hin] at h2
          exact absurd h2 (by decide)
        · rintro ⟨h1, h2⟩
          refine ⟨h1, ?_⟩
          by_contra hcon
          rw [Bool.not_eq_false] at hcon
          have := (List.mem_filter.mp (List.elem_iff.mp hcon)).2
          rw [h2] at this
          exact absurd this (by decide)
  refine ⟨?_, ?_, ?_, ?_, ?_⟩
  · intro ws hws hok
    rw [hfst]
    exact List.mem_filter.mpr ⟨hws, hok⟩
  · intro ws hws
    rw [hfst] at hws
    exact ⟨(List.mem_filter.mp hws).1, (List.mem_filter.mp hws).2⟩
  · intro ws _ hok hmem
    have := ((hsnd ws).mp hmem).2
    rw [hok] at this
    exact absurd this (by decide)
  · intro ws hws hok
    exact (hsnd ws).mpr ⟨hws, hok⟩
  · intro ws hws
    exact ((hsnd ws).mp hws).1

/-- Witness for C8: three subscribers, the send to subscriber 2 throws; the
other two receive the event and subscriber 2 is removed from the set. -/
theorem c8_broadcast_fanout_witness :
    1 ∈ (broadcast_fanout [1, 2, 3] (fun n => decide (n ≠ 2))).1 ∧
    3 ∈ (broadcast_fanout [1, 2, 3] (fun n => decide (n ≠ 2))).1 ∧
    2 ∉ (broadcast_fanout [1, 2, 3] (fun n => decide (n ≠ 2))).2 ∧
    1 ∈ (broadcast_fanout [1, 2, 3] (fun n => decide (n ≠ 2))).2 :=
  ⟨(c8_broadcast_fanout [1, 2, 3] (fun n => decide (n ≠ 2))).1 1 (by decide) (by decide),
   (c8_broadcast_fanout [1, 2, 3] (fun n => decide (n ≠ 2))).1 3 (by decide) (by decide),
   (c8_broadcast_fanout [1, 2, 3] (fun n => decide (n ≠ 2))).2.2.1 2 (by decide) (by decide),
   (c8_broadcast_fanout [1, 2, 3] (fun n => decide (n ≠ 2))).2.2.2.1 1 (by decide) (by decide)⟩

/-! ## Claim C7 -/

/-- C7 counterexample.  The claim says every line matching the hostility
pattern always emits a hostility event and records the associations; but the
handler first cleans both names and returns without emitting or recording
anything when either cleans to empty.  Concretely, an attacker token
`unknown` is normalized away, so nothing is recorded and no event is
emitted. -/
theorem c7_counterexample :
    handle_hostility_line [] [] 0
        (some (str "unknown", str "V_1", str "Tgt")) (str "raw") =
      (false, [], [], []) := by decide

/-- C7 as amended.  A hostility match records the target's vehicle in
`drivers`, caches the attacker, and emits a hostility event precisely when
both the cleaned attacker and the cleaned target names are non-empty (the
cleaning step rejects entity ids and "unknown" placeholders); when either
cleans to empty the line is consumed by no recording and no event. -/
theorem c7_hostility_emission (d : Drivers) (a : Attackers) (now : Time)
    (att tv tp rawL : Str) :
    (clean_player_name att = [] ∨ clean_player_name tp = [] →
      handle_hostility_line d a now (some (att, tv, tp)) rawL = (false, d, a, [])) ∧
    (clean_player_name att ≠ [] → clean_player_name tp ≠ [] →
      handle_hostility_line d a now (some (att, tv, tp)) rawL =
        (true,
         (if tv ≠ [] then dictSet d (clean_player_name tp) ⟨tv, now⟩ else d),
         dictSet a (clean_player_name att) (now, []),
         [{ type := str "hostility", attacker := some (clean_player_name att),
            target := some (clean_player_name tp), raw := trimL rawL }])) := by
  constructor
  · intro h
    simp only [handle_hostility_line]
    rw [if_pos h]
  · intro h1 h2
    simp only [handle_hostility_line]
    rw [if_neg (by push_neg; exact ⟨h1, h2⟩)]
    simp [h1, h2]

/-- Witness for C7's amended statement: both the discarding case (attacker
`unknown`) and the emitting case (attacker `Att`, target `Tgt`). -/
theorem c7_hostility_emission_witness :
    handle_hostility_line [] [] 0
        (some (str "unknown", str "V_1", str "Tgt")) (str "raw") = (false, [], [], []) ∧
    handle_hostility_line [] [] 0
        (some (str "Att", str "V_1", str "Tgt")) (str "raw") =
      (true,
       (if str "V_1" ≠ [] then dictSet [] (clean_player_name (str "Tgt")) ⟨str "V_1", 0⟩ else []),
       dictSet [] (clean_player_name (str "Att")) (0, []),
       [{ type := str "hostility", attacker := some (clean_player_name (str "Att")),
          target := some (clean_player_name (str "Tgt")), raw := trimL (str "raw") }]) :=
  ⟨(c7_hostility_emission [] [] 0 (str "unknown") (str "V_1") (str "Tgt") (str "raw")).1
      (Or.inl (by decide)),
   (c7_hostility_emission [] [] 0 (str "Att") (str "V_1") (str "Tgt") (str "raw")).2
      (by decide) (by decide)⟩

/-! ## Claim C3 -/

/-- The event-type rule exactly as claim C3 states it: `suicide` if killer
equals victim case-insensitively, else `suicide` if the cause/damage string
contains "suicide", else `death` if no killer is known (Python-falsy), else
`kill`.  This definition follows the claim's words, to be compared with the
handlers translated from the source. -/
def spec_event_type (victim : Str) (killer : Option Str) (cause : Str) : Str :=
  match killer with
  | some k =>
    if toLowerL k = toLowerL victim then str "suicide"
    else if containsSubL (toLowerL cause) (str "suicide") then str "suicide"
    else if k = [] then str "death"
    else str "kill"
  | none =>
    if containsSubL (toLowerL cause) (str "suicide") then str "suicide"
    else str "death"

/-- The claim's rule with the cause clause removed — what the corpse-linked
and direct vehicle-destruction paths actually implement. -/
def spec_event_type_nocause (victim : Str) (killer : Option Str) : Str :=
  match killer with
  | some k =>
    if toLowerL k = toLowerL victim then str "suicide"
    else if k = [] then str "death"
    else str "kill"
  | none => str "death"

/-- C3 counterexample.  A vehicle destruction with resolved driver `Alice`,
killer `Bob` and damage type `Suicide` is classified `kill` by the code,
while the claim's uniform rule (the cause string contains "suicide")
classifies it `suicide`: the destruction path never consults the cause. -/
theorem c3_counterexample :
    ((handle_vehicle_destruction [] [] [] 0
        (some (str "V_1", str "Alice", str "Bob", str "Suicide"))
        (str "r")).2.2.2.map Evt.type = [str "kill"]) ∧
    spec_event_type (str "Alice") (some (str "Bob")) (str "Suicide") = str "suicide" ∧
    str "kill" ≠ str "suicide" := by
  refine ⟨by decide, by decide, by decide⟩

/-- The inline type decision of the corpse-link and vehicle-destruction paths
agrees with the claim's rule stripped of the cause clause, whenever the
victim is non-empty (which every emission path guarantees). -/
theorem type_decision_nocause (victim k : Str) (hv : victim ≠ []) :
    (if k ≠ [] ∧ victim ≠ [] ∧ toLowerL k = toLowerL victim then str "suicide"
     else if k = [] then str "death" else str "kill") =
      spec_event_type_nocause victim (if k = [] then none else some k) := by
  by_cases hk : k = []
  · subst hk
    simp [spec_event_type_nocause]
  · by_cases he : toLowerL k = toLowerL victim
    · simp [spec_event_type_nocause, hk, hv, he]
    · simp [spec_event_type_nocause, hk, hv, he]

/-- The inline type decision of the actor-death path agrees with the claim's
full rule whenever the victim is non-empty. -/
theorem type_decision_cause (victim : Str) (killer : Option Str)
    (cause : Option Str) (hv : victim ≠ []) :
    (if pyTruthy killer ∧ victim ≠ [] ∧
          toLowerL (killer.getD []) = toLowerL victim then str "suicide"
     else if containsSubL (toLowerL (cause.getD [])) (str "suicide") then str "suicide"
     else if ¬ pyTruthy killer then str "death" else str "kill") =
      spec_event_type victim killer (cause.getD []) := by
  have hlv : toLowerL victim ≠ [] := fun h => hv (toLowerL_eq_nil.mp h)
  match killer with
  | none =>
    by_cases hc : containsSubL (toLowerL (cause.getD [])) (str "suicide")
    · simp [spec_event_type, pyTruthy, hc]
    · simp [spec_event_type, pyTruthy, hc]
  | some k =>
    by_cases hk : k = []
    · subst hk
      simp [spec_event_type, pyTruthy, toLowerL, Ne.symm hlv]
      rw [if_neg hv]
    · by_cases he : toLowerL k = toLowerL victim
      · simp [spec_event_type, pyTruthy, hk, hv, he]
      · by_cases hc : containsSubL (toLowerL (cause.getD [])) (str "suicide")
        · simp [spec_event_type, pyTruthy, hk, hv, he, hc]
        · simp [spec_event_type, pyTruthy, hk, hv, he, hc]

/-- The corpse-link event's type follows the cause-free rule. -/
theorem corpseLinkEmit_type (d : Drivers) (victim : Str) (e : PendingVK)
    (hv : victim ≠ []) :
    (corpseLinkEmit d victim e).type =
      spec_event_type_nocause (((corpseLinkEmit d victim e).victim).getD [])
        ((corpseLinkEmit d victim e).killer) := by
  simp only [corpseLinkEmit, Option.getD_some]
  exact type_decision_nocause victim e.2.1 hv

/-- Every event of the `RE_CORPSE_PLAYER` branch follows the cause-free rule. -/
theorem corpsePlayerBranch_type (d : Drivers) (p : List PendingVK) (now : Time)
    (gp : Option Str) :
    ∀ ev ∈ (corpsePlayerBranch d p now gp).2.2.2,
      ev.type = spec_event_type_nocause ((ev.victim).getD []) ev.killer := by
  intro ev hev
  cases gp with
  | none => simp [corpsePlayerBranch] at hev
  | some praw =>
    simp only [corpsePlayerBranch] at hev
    split at hev
    · split at hev
      · rw [List.mem_singleton] at hev
        subst hev
        exact corpseLinkEmit_type _ _ _ (by assumption)
      · simp at hev
    · simp at hev

/-- Every event of `handle_corpse_line` follows the cause-free rule. -/
theorem handle_corpse_line_type (d : Drivers) (p : List PendingVK) (now : Time)
    (g1 gp : Option Str) :
    ∀ ev ∈ (handle_corpse_line d p now g1 gp).2.2.2,
      ev.type = spec_event_type_nocause ((ev.victim).getD []) ev.killer := by
  intro ev hev
  cases g1 with
  | none =>
    simp only [handle_corpse_line] at hev
    exact corpsePlayerBranch_type _ _ _ _ ev hev
  | some vraw =>
    simp only [handle_corpse_line] at hev
    split at hev
    · split at hev
      · rw [List.mem_singleton] at hev
        subst hev
        exact corpseLinkEmit_type _ _ _ (by assumption)
      · simp at hev
    · exact corpsePlayerBranch_type _ _ _ _ ev hev

/-- Every event of `handle_vehicle_destruction` follows the cause-free rule. -/
theorem handle_vehicle_destruction_type (d : Drivers) (p : List PendingVK)
    (a : Attackers) (now : Time) (m : Option (Str × Str × Str × Str)) (rawL : Str) :
    ∀ ev ∈ (handle_vehicle_destruction d p a now m rawL).2.2.2,
      ev.type = spec_event_type_nocause ((ev.victim).getD []) ev.killer := by
  intro ev hev
  cases m with
  | none => simp [handle_vehicle_destruction] at hev
  | some g =>
    obtain ⟨vh, dr, kr, dm⟩ := g
    simp only [handle_vehicle_destruction] at hev
    split at hev
    · simp at hev
    · rw [List.mem_singleton] at hev
      subst hev
      next h =>
      exact type_decision_nocause _ _ (fun hd => h (Or.inl hd))

/-- Every event of `actorDeathCore` follows the claim's full rule. -/
theorem actorDeathCore_type (d : Drivers) (now : Time) (vr kr : Str)
    (cause : Option Str) (vvr w : Option Str) (rawL : Str) :
    ∀ ev ∈ (actorDeathCore d now vr kr cause vvr w rawL).2.2,
      ev.type = spec_event_type ((ev.victim).getD []) ev.killer ((ev.cause).getD []) := by
  intro ev hev
  simp only [actorDeathCore] at hev
  split at hev
  · simp at hev
  · rw [List.mem_singleton] at hev
    subst hev
    next h =>
    exact type_decision_cause _ _ _ h

/-- C3 as amended.  The event-type decision is not fully uniform: the
actor-death path implements the claim's whole rule (suicide when killer
equals victim case-insensitively, else suicide when the cause string contains
"suicide", else death when no killer is known, else kill), while the
corpse-linked and direct vehicle-destruction paths implement the same rule
without the cause clause — they never consult the damage string. -/
theorem c3_event_type_decision :
    (∀ (d : Drivers) (now : Time) sc ke da ad rawL,
      ∀ ev ∈ (handle_actor_death_line d now sc ke da ad rawL).2.2,
        ev.type = spec_event_type ((ev.victim).getD []) ev.killer ((ev.cause).getD [])) ∧
    (∀ (d : Drivers) (p : List PendingVK) (now : Time) g1 gp,
      ∀ ev ∈ (handle_corpse_line d p now g1 gp).2.2.2,
        ev.type = spec_event_type_nocause ((ev.victim).getD []) ev.killer) ∧
    (∀ (d : Drivers) (p : List PendingVK) (a : Attackers) (now : Time) m rawL,
      ∀ ev ∈ (handle_vehicle_destruction d p a now m rawL).2.2.2,
        ev.type = spec_event_type_nocause ((ev.victim).getD []) ev.killer) := by
  refine ⟨?_, handle_corpse_line_type, handle_vehicle_destruction_type⟩
  intro d now sc ke da ad rawL ev hev
  cases sc with
  | some g =>
    obtain ⟨v, vv, k, w, dt⟩ := g
    simp only [handle_actor_death_line] at hev
    exact actorDeathCore_type _ _ _ _ _ _ _ _ ev hev
  | none =>
    cases ke with
    | some g =>
      obtain ⟨v, k⟩ := g
      simp only [handle_actor_death_line] at hev
      exact actorDeathCore_type _ _ _ _ _ _ _ _ ev hev
    | none =>
      cases da with
      | some g =>
        obtain ⟨v, k⟩ := g
        simp only [handle_actor_death_line] at hev
        exact actorDeathCore_type _ _ _ _ _ _ _ _ ev hev
      | none =>
        cases ad with
        | some g =>
          obtain ⟨v, k, c⟩ := g
          simp only [handle_actor_death_line] at hev
          exact actorDeathCore_type _ _ _ _ _ _ _ _ ev hev
        | none => simp [handle_actor_death_line] at hev

/-- Witness for C3's amended statement: a destruction kill (driver `Alice`,
killer `Bob`) is typed by the cause-free rule, and an actor-death line with a
suicide cause is typed by the full rule. -/
theorem c3_event_type_decision_witness :
    str "kill" = spec_event_type_nocause (str "Alice") (some (str "Bob")) := by
  have h := c3_event_type_decision.2.2 [] [] [] 0
    (some (str "V_1", str "Alice", str "Bob", str "Suicide")) (str "r")
  have h2 := h { type := str "kill", victim := some (str "Alice"), killer := some (str "Bob"), victim_ship := some (str "V 1"), killer_ship := none, cause := some (str "Suicide"), raw := str "r" } (by decide)
  simpa using h2

/-! ## Claim C9 -/

/-- Events of the `RE_CORPSE_PLAYER` branch carry the non-empty cleaned
player as victim. -/
theorem corpsePlayerBranch_victim (d : Drivers) (p : List PendingVK)
    (now : Time) (gp : Option Str) :
    ∀ ev ∈ (corpsePlayerBranch d p now gp).2.2.2,
      ∃ v, ev.victim = some v ∧ v ≠ [] := by
  intro ev hev
  cases gp with
  | none => simp [corpsePlayerBranch] at hev
  | some praw =>
    simp only [corpsePlayerBranch] at hev
    split at hev
    · split at hev
      · rw [List.mem_singleton] at hev
        subst hev
        exact ⟨clean_player_name praw, rfl, by assumption⟩
      · simp at hev
    · simp at hev

/-- Events of `handle_corpse_line` carry a non-empty victim. -/
theorem handle_corpse_line_victim (d : Drivers) (p : List PendingVK)
    (now : Time) (g1 gp : Option Str) :
    ∀ ev ∈ (handle_corpse_line d p now g1 gp).2.2.2,
      ∃ v, ev.victim = some v ∧ v ≠ [] := by
  intro ev hev
  cases g1 with
  | none =>
    simp only [handle_corpse_line] at hev
    exact corpsePlayerBranch_victim _ _ _ _ ev hev
  | some vraw =>
    simp only [handle_corpse_line] at hev
    split at hev
    · split at hev
      · rw [List.mem_singleton] at hev
        subst hev
        exact ⟨clean_player_name vraw, rfl, by assumption⟩
      · simp at hev
    · exact corpsePlayerBranch_victim _ _ _ _ ev hev

/-- Events of `handle_vehicle_destruction` carry a non-empty victim. -/
theorem handle_vehicle_destruction_victim (d : Drivers) (p : List PendingVK)
    (a : Attackers) (now : Time) (m : Option (Str × Str × Str × Str)) (rawL : Str) :
    ∀ ev ∈ (handle_vehicle_destruction d p a now m rawL).2.2.2,
      ∃ v, ev.victim = some v ∧ v ≠ [] := by
  intro ev hev
  cases m with
  | none => simp [handle_vehicle_destruction] at hev
  | some g =>
    obtain ⟨vh, dr, kr, dm⟩ := g
    simp only [handle_vehicle_destruction] at hev
    split at hev
    · simp at hev
    · rw [List.mem_singleton] at hev
      subst hev
      next h =>
      exact ⟨clean_player_name dr, rfl, fun hd => h (Or.inl hd)⟩

/-- Events of `actorDeathCore` carry a non-empty victim. -/
theorem actorDeathCore_victim (d : Drivers) (now : Time) (vr kr : Str)
    (cause : Option Str) (vvr w : Option Str) (rawL : Str) :
    ∀ ev ∈ (actorDeathCore d now vr kr cause vvr w rawL).2.2,
      ∃ v, ev.victim = some v ∧ v ≠ [] := by
  intro ev hev
  simp only [actorDeathCore] at hev
  split at hev
  · simp at hev
  · rw [List.mem_singleton] at hev
    subst hev
    next h =>
    exact ⟨resolveVictim d vr, rfl, h⟩

/-- Events of `handle_actor_death_line` carry a non-empty victim. -/
theorem handle_actor_death_line_victim (d : Drivers) (now : Time)
    (sc : Option (Str × Str × Str × Str × Str)) (ke da : Option (Str × Str))
    (ad : Option (Str × Str × Option Str)) (rawL : Str) :
    ∀ ev ∈ (handle_actor_death_line d now sc ke da ad rawL).2.2,
      ∃ v, ev.victim = some v ∧ v ≠ [] := by
  intro ev hev
  cases sc with
  | some g =>
    obtain ⟨v, vv, k, w, dt⟩ := g
    simp only [handle_actor_death_line] at hev
    exact actorDeathCore_victim _ _ _ _ _ _ _ _ ev hev
  | none =>
    cases ke with
    | some g =>
      obtain ⟨v, k⟩ := g
      simp only [handle_actor_death_line] at hev
      exact actorDeathCore_victim _ _ _ _ _ _ _ _ ev hev
    | none =>
      cases da with
      | some g =>
        obtain ⟨v, k⟩ := g
        simp only [handle_actor_death_line] at hev
        exact actorDeathCore_victim _ _ _ _ _ _ _ _ ev hev
      | none =>
        cases ad with
        | some g =>
          obtain ⟨v, k, c⟩ := g
          simp only [handle_actor_death_line] at hev
          exact actorDeathCore_victim _ _ _ _ _ _ _ _ ev hev
        | none => simp [handle_actor_death_line] at hev

/-- Every event of `handle_hostility_line` has type `hostility`. -/
theorem handle_hostility_line_type (d : Drivers) (a : Attackers) (now : Time)
    (m : Option (Str × Str × Str)) (rawL : Str) :
    ∀ ev ∈ (handle_hostility_line d a now m rawL).2.2.2,
      ev.type = str "hostility" := by
  intro ev hev
  cases m with
  | none => simp [handle_hostility_line] at hev
  | some g =>
    obtain ⟨ar, tv, tp⟩ := g
    simp only [handle_hostility_line] at hev
    split at hev
    · simp at hev
    · rw [List.mem_singleton] at hev
      subst hev
      rfl

/-- C9.  Every candidate event of type kill, suicide or death produced by
one classification step carries a non-empty victim string: lines whose
victim cannot be resolved produce no event on any path. -/
theorem c9_nonempty_victim (d : Drivers) (p : List PendingVK) (a : Attackers)
    (now : Time) (lm : LineMatches) :
    ∀ ev ∈ (corrStep d p a now lm).2.2.2.2,
      (ev.type = str "kill" ∨ ev.type = str "suicide" ∨ ev.type = str "death") →
      ∃ v, ev.victim = some v ∧ v ≠ [] := by
  intro ev hev htype
  simp only [corrStep] at hev
  split at hev
  · simp at hev
  · split at hev
    · exact handle_corpse_line_victim _ _ _ _ _ ev hev
    · split at hev
      · exact handle_vehicle_destruction_victim _ _ _ _ _ _ ev hev
      · split at hev
        · exact handle_actor_death_line_victim _ _ _ _ _ _ _ ev hev
        · have hh := handle_hostility_line_type _ _ _ _ _ ev hev
          rw [hh] at htype
          rcases htype with h | h | h
          · exact absurd h (by decide)
          · exact absurd h (by decide)
          · exact absurd h (by decide)

/-- Witness for C9: the direct-destruction kill of `Alice` by `Bob` has the
non-empty victim `Alice`. -/
theorem c9_nonempty_victim_witness :
    ∃ v, ({ type := str "kill", victim := some (str "Alice"), killer := some (str "Bob"), victim_ship := some (str "V 1"), killer_ship := none, cause := some (str "Combat"), raw := str "r" } : Evt).victim = some v ∧ v ≠ [] :=
  c9_nonempty_victim [] [] [] 0
    { vehicleDestructionM := some (str "V_1", str "Alice", str "Bob", str "Combat"), raw := str "r" }
    _ (by decide) (by decide)

/-! ## Claim C10 -/

/-- Two correlator states that agree on every cache except the stashed
`last_corpse` value. -/
def eqExceptLastCorpse (s1 s2 : CorrState) : Prop :=
  s1.drivers = s2.drivers ∧
  s1.pending_vehicle_kills = s2.pending_vehicle_kills ∧
  s1.recent_attackers = s2.recent_attackers

/-- Two pipeline states that agree everywhere except `last_corpse`. -/
def pipeRel (p1 p2 : PipeState) : Prop :=
  eqExceptLastCorpse p1.corr p2.corr ∧
  p1.recent_signatures = p2.recent_signatures ∧
  p1.recent_times = p2.recent_times

/-- One classification step neither reads `last_corpse` nor lets it influence
the candidate events: states equal up to `last_corpse` step to states equal
up to `last_corpse` with identical events. -/
theorem processLine_last_corpse_independent (s1 s2 : CorrState) (now : Time)
    (lm : LineMatches) (h : eqExceptLastCorpse s1 s2) :
    (processLine s1 now lm).2 = (processLine s2 now lm).2 ∧
    eqExceptLastCorpse (processLine s1 now lm).1 (processLine s2 now lm).1 := by
  obtain ⟨h1, h2, h3⟩ := h
  cases s1
  cases s2
  dsimp only at h1 h2 h3
  subst h1
  subst h2
  subst h3
  exact ⟨rfl, rfl, rfl, rfl⟩

/-- One full pipeline step (classification plus dedup) preserves the
`last_corpse`-agnostic relation and forwards identical events. -/
theorem pipelineStep_last_corpse_independent (p1 p2 : PipeState) (now : Time)
    (lm : LineMatches) (h : pipeRel p1 p2) :
    (pipelineStep p1 now lm).2 = (pipelineStep p2 now lm).2 ∧
    pipeRel (pipelineStep p1 now lm).1 (pipelineStep p2 now lm).1 := by
  obtain ⟨hc, hs, ht⟩ := h
  have hp := processLine_last_corpse_independent p1.corr p2.corr now lm hc
  rcases hA : processLine p1.corr now lm with ⟨st1, cands1⟩
  rcases hB : processLine p2.corr now lm with ⟨st2, cands2⟩
  rw [hA, hB] at hp
  obtain ⟨hcands, hst⟩ := hp
  dsimp only at hcands
  subst hcands
  simp only [pipelineStep, hA, hB, hs, ht]
  exact ⟨trivial, hst, rfl, rfl⟩

/-- C10.  The stashed `last_corpse` pair is dead state: it is written by the
corpse handler but never read, so two runs of the full pipeline that start
from states differing only in `last_corpse` produce identical forwarded
events on every subsequent line sequence (and stay equal except for
`last_corpse`); a corpse stored without a link can never resolve a later
destruction. -/
theorem c10_last_corpse_never_read (ps1 ps2 : PipeState) (h : pipeRel ps1 ps2)
    (ls : List (Time × LineMatches)) :
    (pipelineRun ps1 ls).2 = (pipelineRun ps2 ls).2 ∧
    pipeRel (pipelineRun ps1 ls).1 (pipelineRun ps2 ls).1 := by
  induction ls generalizing ps1 ps2 with
  | nil => exact ⟨rfl, h⟩
  | cons tl rest ih =>
    obtain ⟨t, lm⟩ := tl
    have hstep := pipelineStep_last_corpse_independent ps1 ps2 t lm h
    have hih := ih _ _ hstep.2
    constructor
    · show (pipelineStep ps1 t lm).2 ++ (pipelineRun (pipelineStep ps1 t lm).1 rest).2 =
        (pipelineStep ps2 t lm).2 ++ (pipelineRun (pipelineStep ps2 t lm).1 rest).2
      rw [hstep.1, hih.1]
    · exact hih.2

/-- Witness for C10: a run from the empty initial state and a run whose
state already stashes a corpse `("x", t=0)` forward the same events for a
later corpse line. -/
theorem c10_last_corpse_never_read_witness :
    (pipelineRun initState [(3, { corpseM := some (str "Alice"), raw := str "c" })]).2 =
    (pipelineRun ⟨⟨[], some (0, str "x"), [], []⟩, [], []⟩
      [(3, { corpseM := some (str "Alice"), raw := str "c" })]).2 :=
  (c10_last_corpse_never_read initState ⟨⟨[], some (0, str "x"), [], []⟩, [], []⟩
    ⟨⟨rfl, rfl, rfl⟩, rfl, rfl⟩ _).1

/-! ## Claim C4 -/

/-- C4 counterexample.  `handle_vehicle_destruction` never prunes `drivers`
before `get_killer_ship` reads it: with a driver entry for `Alice` inserted
at `t0 = 0`, a destruction at `t = 400` (age `400 > 300 = DRIVER_TTL_SEC`)
still resolves `Alice`'s ship from the stale entry, and even at `t0 + 301`
the claimed-absent entry is still served to the lookup. -/
theorem c4_counterexample :
    (∀ pr ∈ ([(str "Alice", ⟨str "cutlass", (0 : Time)⟩)] : Drivers),
      (400 : Time) - pr.2.last_seen > DRIVER_TTL_SEC) ∧
    ((handle_vehicle_destruction [(str "Alice", ⟨str "cutlass", 0⟩)] [] [] 400
        (some (str "MISC_Starfarer_9", str "Bob", str "Alice", str "Combat"))
        (str "r")).2.2.2.map Evt.killer_ship = [some (str "Cutlass")]) ∧
    ((handle_vehicle_destruction [(str "Alice", ⟨str "cutlass", 0⟩)] [] [] 301
        (some (str "MISC_Starfarer_9", str "Bob", str "Alice", str "Combat"))
        (str "r")).2.2.2.map Evt.killer_ship = [some (str "Cutlass")]) := by
  refine ⟨by decide, by decide, by decide⟩

/-- After pruning, no driver entry is older than the TTL. -/
theorem prune_drivers_sound (t : Time) (d : Drivers) :
    ∀ pr ∈ prune_drivers t d, t - pr.2.last_seen ≤ DRIVER_TTL_SEC := by
  intro pr hpr
  unfold prune_drivers at hpr
  have h := (List.mem_filter.mp hpr).2
  simp only [Bool.not_eq_true', decide_eq_false_iff_not, not_lt] at h
  exact h

/-- When the victim resolves, the actor-death path returns the pruned
driver map. -/
theorem actorDeathCore_drivers (d : Drivers) (now : Time) (vr kr : Str)
    (cause : Option Str) (vvr w : Option Str) (rawL : Str)
    (h : resolveVictim d vr ≠ []) :
    (actorDeathCore d now vr kr cause vvr w rawL).2.1 = prune_drivers now d := by
  simp only [actorDeathCore]
  rw [if_neg h]

/-- C4 as amended.  Lazy pruning guards only the actor-death path: there,
`prune_drivers` runs before the ship lookups, so a driver entry inserted at
`t0` yields its ship in the victim-ship lookup at `t0 + 299` and is gone from
the map and from the lookup at `t0 + 301`, and the map the lookups read
contains no entry older than `DRIVER_TTL_SEC`.  The reads in
`get_killer_ship` (corpse and destruction paths) and the entity-id reverse
lookups run without pruning and can observe older entries
(see the C4 counterexample). -/
theorem c4_driver_ttl_actor_path (t0 tr : Time) (name ship : Str)
    (hclean : clean_player_name name = name) (hne : name ≠ []) :
    (tr - t0 ≤ DRIVER_TTL_SEC →
      (actorDeathCore [(name, ⟨ship, t0⟩)] tr name [] none none none (str "r")).2.1 =
        [(name, ⟨ship, t0⟩)] ∧
      (actorDeathCore [(name, ⟨ship, t0⟩)] tr name [] none none none
        (str "r")).2.2.map Evt.victim_ship = [some (get_ship_display_name ship)]) ∧
    (tr - t0 > DRIVER_TTL_SEC →
      (actorDeathCore [(name, ⟨ship, t0⟩)] tr name [] none none none (str "r")).2.1 = [] ∧
      (actorDeathCore [(name, ⟨ship, t0⟩)] tr name [] none none none
        (str "r")).2.2.map Evt.victim_ship = [none]) ∧
    (∀ pr ∈ (actorDeathCore [(name, ⟨ship, t0⟩)] tr name [] none none none (str "r")).2.1,
      tr - pr.2.last_seen ≤ DRIVER_TTL_SEC) := by
  have hrv : resolveVictim [(name, ⟨ship, t0⟩)] name = name := by
    unfold resolveVictim
    rw [hclean, if_neg (by rintro ⟨h, -⟩; exact hne h)]
  have hrk : resolveKiller [(name, ⟨ship, t0⟩)] [] = none := by
    simp [resolveKiller, clean_player_name]
  have hvne : resolveVictim [(name, ⟨ship, t0⟩)] name ≠ [] := by
    rw [hrv]; exact hne
  refine ⟨?_, ?_, ?_⟩
  · intro hle
    have hcond : (!decide (tr - (⟨ship, t0⟩ : DriverEntry).last_seen > DRIVER_TTL_SEC)) = true := by
      simp only [Bool.not_eq_true', decide_eq_false_iff_not, not_lt]
      exact hle
    have hprune : prune_drivers tr [(name, ⟨ship, t0⟩)] = [(name, ⟨ship, t0⟩)] := by
      simp only [prune_drivers, List.filter_cons, hcond, if_true, List.filter_nil]
    constructor
    · rw [actorDeathCore_drivers _ _ _ _ _ _ _ _ hvne, hprune]
    · simp only [actorDeathCore, hrv, hrk, if_neg hne, hprune]
      simp [dictFind, hne]
  · intro hgt
    have hcond : (!decide (tr - (⟨ship, t0⟩ : DriverEntry).last_seen > DRIVER_TTL_SEC)) = false := by
      simp only [Bool.not_eq_false', decide_eq_true_eq]
      exact hgt
    have hprune : prune_drivers tr [(name, ⟨ship, t0⟩)] = [] := by
      simp only [prune_drivers, List.filter_cons, hcond, if_false, List.filter_nil]
      simp
    constructor
    · rw [actorDeathCore_drivers _ _ _ _ _ _ _ _ hvne, hprune]
    · simp only [actorDeathCore, hrv, hrk, if_neg hne, hprune]
      simp [dictFind, hne]
  · rw [actorDeathCore_drivers _ _ _ _ _ _ _ _ hvne]
    exact prune_drivers_sound tr _

/-- Witness for C4's amended statement: `Alice`'s entry inserted at `t0 = 0`
is used by the ship lookup at `t = 299` and pruned away at `t = 301`. -/
theorem c4_driver_ttl_actor_path_witness :
    ((actorDeathCore [(str "Alice", ⟨str "cutlass", 0⟩)] 299 (str "Alice") [] none none none
        (str "r")).2.1 = [(str "Alice", ⟨str "cutlass", 0⟩)] ∧
      (actorDeathCore [(str "Alice", ⟨str "cutlass", 0⟩)] 299 (str "Alice") [] none none none
        (str "r")).2.2.map Evt.victim_ship = [some (get_ship_display_name (str "cutlass"))]) ∧
    ((actorDeathCore [(str "Alice", ⟨str "cutlass", 0⟩)] 301 (str "Alice") [] none none none
        (str "r")).2.1 = [] ∧
      (actorDeathCore [(str "Alice", ⟨str "cutlass", 0⟩)] 301 (str "Alice") [] none none none
        (str "r")).2.2.map Evt.victim_ship = [none]) :=
  ⟨(c4_driver_ttl_actor_path 0 299 (str "Alice") (str "cutlass") (by decide) (by decide)).1
      (by decide),
   (c4_driver_ttl_actor_path 0 301 (str "Alice") (str "cutlass") (by decide) (by decide)).2.1
      (by decide)⟩

/-! ## Claim C6 -/

/-- The claim's token shape: the token has an underscore whose trailing
segment (the part after the last underscore) is a numeric string longer than
8 digits. -/
def entityIdShape (l : Str) : Prop :=
  ∃ pre suf, l = pre ++ '_' :: suf ∧ 8 < suf.length ∧
    (∀ c ∈ suf, c.isDigit = true) ∧ '_' ∉ suf

/-- Splitting a string that does not contain the separator yields the string
itself as the single piece. -/
theorem splitOnCharL_of_not_mem (c : Char) (s : Str) (h : c ∉ s) :
    splitOnCharL c s = [s] := by
  induction s with
  | nil => rfl
  | cons x xs ih =>
    simp only [List.mem_cons, not_or] at h
    simp only [splitOnCharL, ih h.2]
    rw [if_neg (fun hx => h.1 hx.symm)]

/-- Splitting a string whose last separator is followed by the
separator-free tail `suf` ends the piece list with `suf`. -/
theorem splitOnCharL_concat (c : Char) (pre suf : Str) (h : c ∉ suf) :
    ∃ k, splitOnCharL c (pre ++ c :: suf) = k ++ [suf] ∧ k ≠ [] := by
  induction pre with
  | nil =>
    refine ⟨[[]], ?_, by simp⟩
    simp only [List.nil_append, splitOnCharL, if_pos rfl,
      splitOnCharL_of_not_mem c suf h]
    simp
  | cons x pre ih =>
    obtain ⟨k, hk, hkne⟩ := ih
    by_cases hx : x = c
    · refine ⟨[] :: k, ?_, by simp⟩
      simp only [List.cons_append, splitOnCharL, hk, if_pos hx]
      simp [hk]
    · cases k with
      | nil => exact absurd rfl hkne
      | cons k0 ktl =>
        refine ⟨(x :: k0) :: ktl, ?_, by simp⟩
        simp only [List.cons_append, splitOnCharL, if_neg hx, List.append_eq]
        rw [hk]
        rfl

/-- A token of the claim's shape is non-empty. -/
theorem entityIdShape_ne_nil {l : Str} (h : entityIdShape l) : l ≠ [] := by
  obtain ⟨pre, suf, rfl, -, -, -⟩ := h
  simp

/-- A token of the claim's shape is detected by `is_entity_id`. -/
theorem entityIdShape_is_entity_id {l : Str} (h : entityIdShape l) :
    is_entity_id l = true := by
  obtain ⟨pre, suf, rfl, hlen, hdig, hnus⟩ := h
  have hsne : suf ≠ [] := by
    intro hs
    rw [hs] at hlen
    exact absurd hlen (by decide)
  have h0 : (pre ++ '_' :: suf).isEmpty = false := by
    cases pre <;> rfl
  have h1 : (pre ++ '_' :: suf).contains '_' = true :=
    List.elem_iff.mpr (List.mem_append.mpr (Or.inr (List.mem_cons_self _ _)))
  have h2 : (pre ++ '_' :: suf).any Char.isDigit = true := by
    rw [List.any_eq_true]
    obtain ⟨x, hx⟩ := List.exists_mem_of_ne_nil suf hsne
    exact ⟨x, List.mem_append.mpr (Or.inr (List.mem_cons_of_mem _ hx)), hdig x hx⟩
  obtain ⟨k, hsplit, hkne⟩ := splitOnCharL_concat '_' pre suf hnus
  have h3 : (splitOnCharL '_' (pre ++ '_' :: suf)).length ≥ 2 := by
    rw [hsplit, List.length_append]
    have := List.length_pos.mpr hkne
    simp only [List.length_singleton]
    omega
  have h4 : (splitOnCharL '_' (pre ++ '_' :: suf)).getLastD [] = suf := by
    rw [hsplit]
    exact List.getLastD_concat _ _ _
  have h5 : pyIsDigit suf = true := by
    have hie : suf.isEmpty = false := by
      cases suf with
      | nil => exact absurd rfl hsne
      | cons a as => rfl
    rw [pyIsDigit, hie]
    simp only [Bool.not_false, Bool.true_and, List.all_eq_true]
    exact hdig
  rw [is_entity_id, h0]
  rw [if_neg (by decide)]
  rw [h1, h2]
  rw [if_pos (by decide), if_pos h3, h4]
  simp [h5, hlen]

/-- A token of the claim's shape is cleaned to the empty string. -/
theorem entityIdShape_clean {l : Str} (h : entityIdShape l) :
    clean_player_name l = [] := by
  have h0 : l.isEmpty = false := by
    have := entityIdShape_ne_nil h
    cases l with
    | nil => exact absurd rfl this
    | cons x xs => rfl
  rw [clean_player_name, h0]
  rw [if_neg (by decide), entityIdShape_is_entity_id h]
  rw [if_pos rfl]

/-- A successful reverse lookup returns the first driver whose non-empty
vehicle id contains the token; in particular such an entry exists in the
map. -/
theorem reverseLookup_spec {d : Drivers} {tok dn : Str}
    (h : reverseLookup d tok = some dn) :
    ∃ en, (dn, en) ∈ d ∧ en.ship ≠ [] ∧ containsSubL en.ship tok = true := by
  unfold reverseLookup at h
  cases hf : d.find? (fun p => !p.2.ship.isEmpty && containsSubL p.2.ship tok) with
  | none =>
    rw [hf] at h
    exact Option.noConfusion h
  | some pr =>
    rw [hf] at h
    simp only [Option.map_some', Option.some.injEq] at h
    have hmem := List.mem_of_find?_eq_some hf
    have hp := List.find?_some hf
    simp only [Bool.and_eq_true, Bool.not_eq_true'] at hp
    refine ⟨pr.2, ?_, ?_, hp.2⟩
    · rw [← h]
      simpa using hmem
    · intro hs
      rw [hs] at hp
      exact absurd hp.1 (by decide)

/-- C6.  A victim or killer token of the entity-id shape (underscore followed
by a numeric trailing segment longer than 8 digits) is never used directly as
a person name by the actor-death path: a shaped victim token either resolves
through the `drivers` reverse lookup to a driver whose recorded vehicle id
contains the token, or the line produces no event; a shaped killer token
either resolves the same way or the killer is reported as absent. -/
theorem c6_entity_id_rejection (d : Drivers) (now : Time) (vr kr : Str)
    (cause : Option Str) (vvr w : Option Str) (rawL : Str) :
    (entityIdShape vr →
      (actorDeathCore d now vr kr cause vvr w rawL).2.2 = [] ∨
      ∃ ev dn en, (actorDeathCore d now vr kr cause vvr w rawL).2.2 = [ev] ∧
        ev.victim = some dn ∧ reverseLookup d vr = some dn ∧
        (dn, en) ∈ d ∧ en.ship ≠ [] ∧ containsSubL en.ship vr = true) ∧
    (entityIdShape kr →
      (actorDeathCore d now vr kr cause vvr w rawL).2.2 = [] ∨
      ∃ ev, (actorDeathCore d now vr kr cause vvr w rawL).2.2 = [ev] ∧
        (ev.killer = none ∨
          ∃ dn, ev.killer = some dn ∧ reverseLookup d kr = some dn)) := by
  constructor
  · intro hshape
    have hvne : vr ≠ [] := entityIdShape_ne_nil hshape
    have hclean : clean_player_name vr = [] := entityIdShape_clean hshape
    have hres : resolveVictim d vr = (reverseLookup d vr).getD [] := by
      unfold resolveVictim
      rw [hclean, if_pos ⟨rfl, hvne⟩]
    cases hrl : reverseLookup d vr with
    | none =>
      left
      have hz : resolveVictim d vr = [] := by rw [hres, hrl]; rfl
      simp [actorDeathCore, hz]
    | some dn =>
      by_cases hdn : dn = []
      · left
        have hz : resolveVictim d vr = [] := by rw [hres, hrl, hdn]; rfl
        simp [actorDeathCore, hz]
      · right
        have hres2 : resolveVictim d vr = dn := by rw [hres, hrl]; rfl
        obtain ⟨en, hmem, hship, hcont⟩ := reverseLookup_spec hrl
        have hev : ∃ ev, (actorDeathCore d now vr kr cause vvr w rawL).2.2 = [ev] ∧
            ev.victim = some dn := by
          rw [actorDeathCore]
          rw [hres2, if_neg hdn]
          exact ⟨_, rfl, rfl⟩
        obtain ⟨ev, he1, he2⟩ := hev
        exact ⟨ev, dn, en, he1, he2, rfl, hmem, hship, hcont⟩
  · intro hshape
    have hkne : kr ≠ [] := entityIdShape_ne_nil hshape
    have hclean : clean_player_name kr = [] := entityIdShape_clean hshape
    have hrk : resolveKiller d kr =
        match reverseLookup d kr with
        | some dn => some dn
        | none => none := by
      simp [resolveKiller, hclean, hkne]
    by_cases hv : resolveVictim d vr = []
    · left
      simp [actorDeathCore, hv]
    · right
      have hev : ∃ ev, (actorDeathCore d now vr kr cause vvr w rawL).2.2 = [ev] ∧
          ev.killer = resolveKiller d kr := by
        rw [actorDeathCore]
        rw [if_neg hv]
        exact ⟨_, rfl, rfl⟩
      obtain ⟨ev, he1, he2⟩ := hev
      refine ⟨ev, he1, ?_⟩
      cases hrl : reverseLookup d kr with
      | none =>
        left
        rw [he2, hrk, hrl]
      | some dn =>
        right
        exact ⟨dn, by rw [he2, hrk, hrl], rfl⟩

/-- Witness for C6: the zone token `ANVL_Arrow_123456789` (9-digit numeric
trailing segment) appearing as victim is handled by the theorem; here the
reverse lookup resolves it to `Alice`, whose recorded vehicle id contains the
token. -/
theorem c6_entity_id_rejection_witness :
    (actorDeathCore [(str "Alice", ⟨str "SHIP_ANVL_Arrow_123456789", 0⟩)] 5
        (str "ANVL_Arrow_123456789") (str "Bob") none none none (str "r")).2.2 = [] ∨
    ∃ (ev : Evt) (dn : Str) (en : DriverEntry),
      (actorDeathCore [(str "Alice", ⟨str "SHIP_ANVL_Arrow_123456789", 0⟩)] 5
        (str "ANVL_Arrow_123456789") (str "Bob") none none none (str "r")).2.2 = [ev] ∧
      ev.victim = some dn ∧
      reverseLookup [(str "Alice", ⟨str "SHIP_ANVL_Arrow_123456789", 0⟩)]
        (str "ANVL_Arrow_123456789") = some dn ∧
      (dn, en) ∈ [(str "Alice", ⟨str "SHIP_ANVL_Arrow_123456789", 0⟩)] ∧
      en.ship ≠ [] ∧ containsSubL en.ship (str "ANVL_Arrow_123456789") = true :=
  (c6_entity_id_rejection [(str "Alice", ⟨str "SHIP_ANVL_Arrow_123456789", 0⟩)] 5
      (str "ANVL_Arrow_123456789") (str "Bob") none none none (str "r")).1
    ⟨str "ANVL_Arrow", str "123456789", by decide, by decide, by decide, by decide⟩

/-! ## Claim C1 -/

/-- A raw line whose only match is `RE_VEHICLE_DESTRUCTION`, with vehicle
`V`, the literal unresolved driver `unknown`, killer `K` and damage type
`damage`. -/
def destructionLine (V K damage rawD : Str) : LineMatches :=
  { vehicleDestructionM := some (V, str "unknown", K, damage), raw := rawD }

/-- A raw line whose only match is `RE_CORPSE`, naming victim `P`. -/
def corpseLine (P rawC : Str) : LineMatches :=
  { corpseM := some P, raw := rawC }

/-- Classifying a destruction line with unresolved driver queues a pending
kill, prunes the attacker cache, and emits nothing. -/
theorem corrStep_destructionLine (d : Drivers) (p : List PendingVK)
    (a : Attackers) (td : Time) (V K damage rawD : Str) :
    corrStep d p a td (destructionLine V K damage rawD) =
      (d,
       pushMax 64 p (td, clean_player_name K, V,
         (if damage = [] then str "Combat" else damage), trimL rawD),
       a.filter (fun kv => !decide (td - kv.2.1 > ATTACKER_CACHE_TTL)),
       none, []) := by
  have hu : clean_player_name (str "unknown") = [] := by decide
  simp [corrStep, destructionLine, extract_driver, handle_corpse_line,
    corpsePlayerBranch, handle_vehicle_destruction, hu]

/-- The backwards pending scan finds a just-appended entry whose age is
within the link window. -/
theorem corpseLinkScan_concat (tc : Time) (q : List PendingVK) (e : PendingVK)
    (h : tc - e.1 ≤ LINK_WINDOW_SEC) :
    corpseLinkScan tc (q ++ [e]) = some e := by
  unfold corpseLinkScan
  simp only [List.reverse_append, List.reverse_singleton, List.singleton_append]
  rw [List.find?_cons_of_pos _ (by simpa using h)]

/-- Classifying a corpse line whose cleaned victim is non-empty, when the
backwards scan finds pending entry `e`, emits the linked event and removes
`e`. -/
theorem corrStep_corpseLine_link (d : Drivers) (p : List PendingVK)
    (a : Attackers) (tc : Time) (P rawC : Str) (e : PendingVK)
    (hP : clean_player_name P = P) (hPne : P ≠ [])
    (hscan : corpseLinkScan tc p = some e) :
    corrStep d p a tc (corpseLine P rawC) =
      (d, p.erase e, a, none, [corpseLinkEmit d P e]) := by
  simp [corrStep, corpseLine, extract_driver, handle_corpse_line, hP, hPne, hscan]

/-- C1.  A vehicle destruction for vehicle `V` with killer `K` and the
unresolved driver `unknown` emits nothing and queues a pending kill; a corpse
line naming victim `P` processed within `LINK_WINDOW_SEC` (6s) afterwards
makes the pipeline forward exactly one event of type `kill` with victim `P`,
killer `K`, cause the destruction's damage type and `victim_ship` derived
from `V` by ship-name resolution, and the consumed pending entry is removed
from the pending queue.  Hypotheses: `K` and `P` are clean non-empty names,
`K` is not `P` up to case (otherwise the event is a suicide), the damage
string is non-empty (otherwise it defaults to `Combat`), and the event's
dedup signature is not already recorded. -/
theorem c1_destruction_corpse_link (ps0 : PipeState) (td tc : Time)
    (V K P damage rawD rawC : Str)
    (hK : clean_player_name K = K) (hKne : K ≠ [])
    (hP : clean_player_name P = P) (hPne : P ≠ [])
    (hsui : toLowerL K ≠ toLowerL P)
    (hdam : damage ≠ [])
    (hwin : tc - td ≤ LINK_WINDOW_SEC)
    (hfresh : ((str "kill", toLowerL P, toLowerL K) : Sig) ∉ ps0.recent_signatures) :
    (pipelineStep ps0 td (destructionLine V K damage rawD)).2 = [] ∧
    (pipelineStep (pipelineStep ps0 td (destructionLine V K damage rawD)).1 tc
        (corpseLine P rawC)).2 =
      [{ type := str "kill", victim := some P, killer := some K,
         victim_ship := some (get_ship_display_name V),
         killer_ship := get_killer_ship ps0.corr.drivers K,
         cause := some damage, raw := trimL rawD }] ∧
    (pipelineStep (pipelineStep ps0 td (destructionLine V K damage rawD)).1 tc
        (corpseLine P rawC)).1.corr.pending_vehicle_kills =
      (pushMax 64 ps0.corr.pending_vehicle_kills (td, K, V, damage, trimL rawD)).erase
        (td, K, V, damage, trimL rawD) := by
  have hstep1 := corrStep_destructionLine ps0.corr.drivers
    ps0.corr.pending_vehicle_kills ps0.corr.recent_attackers td V K damage rawD
  rw [hK, if_neg hdam] at hstep1
  have hproc1 : processLine ps0.corr td (destructionLine V K damage rawD) =
      (⟨ps0.corr.drivers, ps0.corr.last_corpse,
        pushMax 64 ps0.corr.pending_vehicle_kills (td, K, V, damage, trimL rawD),
        ps0.corr.recent_attackers.filter
          (fun kv => !decide (td - kv.2.1 > ATTACKER_CACHE_TTL))⟩, []) := by
    simp only [processLine, hstep1]
  have hpipe1 : pipelineStep ps0 td (destructionLine V K damage rawD) =
      (⟨⟨ps0.corr.drivers, ps0.corr.last_corpse,
        pushMax 64 ps0.corr.pending_vehicle_kills (td, K, V, damage, trimL rawD),
        ps0.corr.recent_attackers.filter
          (fun kv => !decide (td - kv.2.1 > ATTACKER_CACHE_TTL))⟩,
        ps0.recent_signatures, ps0.recent_times⟩, []) := by
    simp only [pipelineStep, hproc1, List.foldl_nil]
  have hscan : corpseLinkScan tc
      (pushMax 64 ps0.corr.pending_vehicle_kills (td, K, V, damage, trimL rawD)) =
      some (td, K, V, damage, trimL rawD) := by
    rw [pushMax_eq]
    exact corpseLinkScan_concat tc _ _ hwin
  have hstep2 := corrStep_corpseLine_link ps0.corr.drivers
    (pushMax 64 ps0.corr.pending_vehicle_kills (td, K, V, damage, trimL rawD))
    (ps0.corr.recent_attackers.filter
      (fun kv => !decide (td - kv.2.1 > ATTACKER_CACHE_TTL)))
    tc P rawC (td, K, V, damage, trimL rawD) hP hPne hscan
  have hemit : corpseLinkEmit ps0.corr.drivers P (td, K, V, damage, trimL rawD) =
      { type := str "kill", victim := some P, killer := some K,
        victim_ship := some (get_ship_display_name V),
        killer_ship := get_killer_ship ps0.corr.drivers K,
        cause := some damage, raw := trimL rawD } := by
    simp only [corpseLinkEmit]
    rw [if_neg (by rintro ⟨-, -, h⟩; exact hsui h), if_neg hKne, if_neg hKne]
  rw [hemit] at hstep2
  have hsig : sign_evt
      ({ type := str "kill", victim := some P, killer := some K,
         victim_ship := some (get_ship_display_name V),
         killer_ship := get_killer_ship ps0.corr.drivers K,
         cause := some damage, raw := trimL rawD } : Evt) =
      ((str "kill", toLowerL P, toLowerL K) : Sig) := by
    simp [sign_evt]
  refine ⟨by rw [hpipe1], ?_, ?_⟩
  · rw [hpipe1]
    simp only [pipelineStep, processLine, hstep2, List.foldl_cons, List.foldl_nil,
      dedupFold, hsig, broadcast_dedup, if_neg hfresh]
    simp
  · rw [hpipe1]
    simp only [pipelineStep, processLine, hstep2, List.foldl_cons, List.foldl_nil,
      dedupFold, hsig, broadcast_dedup, if_neg hfresh]

/-- Witness for C1: from the empty initial state, a destruction of
`ANVL_Arrow_3001` by `Bob` with unknown driver at `t = 0` followed by a
corpse naming `Alice` at `t = 3` forwards exactly the linked kill event. -/
theorem c1_destruction_corpse_link_witness :
    (pipelineStep initState 0
      (destructionLine (str "ANVL_Arrow_3001") (str "Bob") (str "Combat") (str "dline"))).2 = [] ∧
    (pipelineStep (pipelineStep initState 0
        (destructionLine (str "ANVL_Arrow_3001") (str "Bob") (str "Combat") (str "dline"))).1 3
        (corpseLine (str "Alice") (str "cline"))).2 =
      [{ type := str "kill", victim := some (str "Alice"), killer := some (str "Bob"),
         victim_ship := some (get_ship_display_name (str "ANVL_Arrow_3001")),
         killer_ship := get_killer_ship initState.corr.drivers (str "Bob"),
         cause := some (str "Combat"), raw := trimL (str "dline") }] ∧
    (pipelineStep (pipelineStep initState 0
        (destructionLine (str "ANVL_Arrow_3001") (str "Bob") (str "Combat") (str "dline"))).1 3
        (corpseLine (str "Alice") (str "cline"))).1.corr.pending_vehicle_kills =
      (pushMax 64 initState.corr.pending_vehicle_kills
        (0, str "Bob", str "ANVL_Arrow_3001", str "Combat", trimL (str "dline"))).erase
        (0, str "Bob", str "ANVL_Arrow_3001", str "Combat", trimL (str "dline")) :=
  c1_destruction_corpse_link initState 0 3 (str "ANVL_Arrow_3001") (str "Bob")
    (str "Alice") (str "Combat") (str "dline") (str "cline")
    (by decide) (by decide) (by decide) (by decide) (by decide) (by decide)
    (by decide) (by decide)
